import Mathlib

/-!
Verification of the connection-id label parser (`CosmosDBDatabase`), the
`localGitDeploy` flow of `SiteNodeBase`, the deploy-command confirmation
condition, and `stopLogStream`, shallowly embedded from the TypeScript
sources of the vscode-azureappservice extension.

Strings are modelled as lists of characters.  The two regular expressions of
`CosmosDBDatabase` (`subscriptions\/(.*)resourceGroups\/(.*)providers\/(.*)databaseAccounts\/(.*)`
and `cosmosDBAttachedAccounts\/(.*)`) are alternations of literal pieces and
greedy `(.*)` groups, so `String.prototype.match` is embedded by a
backtracking matcher specialised to the pattern shape
`lit₀ (.*) lit₁ (.*) ... litₖ (.*)`: the match starts at the leftmost
feasible position, each `(.*)` greedily takes the longest prefix of the
current line (JavaScript `.` does not cross line terminators) such that the
remaining pattern still matches, and the resulting array is the full match
followed by the captured groups.
-/

namespace AppService

abbrev Str := List Char

/-- JavaScript line terminators, which `.` does not match. -/
def isLineTerm (c : Char) : Bool :=
  c == '\n' || c == '\r' || c == '\u2028' || c == '\u2029'

/-- Longest prefix that a run of `.` can cover (stops at a line terminator). -/
def takeLine (s : Str) : Str := s.takeWhile (fun c => !isLineTerm c)

def lineLen (s : Str) : Nat := (takeLine s).length

/-- One backtracking attempt: capture exactly `n` characters with `(.*)`,
then require literal `L` and continue with the rest of the pattern. -/
def attemptAt (L : Str) (next : Str → Option (List Str)) (s : Str) (n : Nat) :
    Option (List Str) :=
  if L.isPrefixOf (s.drop n) then
    match next (s.drop (n + L.length)) with
    | some caps => some (s.take n :: caps)
    | none => none
  else none

/-- Greedy backtracking over the capture length of one `(.*)` group:
try `n` characters first, then shorter captures. -/
def tryCaps (L : Str) (next : Str → Option (List Str)) (s : Str) :
    Nat → Option (List Str)
  | 0 => attemptAt L next s 0
  | n + 1 =>
    match attemptAt L next s (n + 1) with
    | some caps => some caps
    | none => tryCaps L next s n

/-- Match `(.*) lit₁ (.*) ... litₖ (.*)` against `s`, returning the captures. -/
def groupsMatch : List Str → Str → Option (List Str)
  | [], s => some [takeLine s]
  | L :: lits, s => tryCaps L (groupsMatch lits) s (lineLen s)

/-- Attempt the whole pattern at the current position. -/
def startAttempt (L0 : Str) (lits : List Str) (s : Str) : Option (List Str) :=
  if L0.isPrefixOf s then groupsMatch lits (s.drop L0.length) else none

/-- Leftmost match: attempt at each position in turn. -/
def matchPat (L0 : Str) (lits : List Str) : Str → Option (List Str)
  | [] => startAttempt L0 lits []
  | c :: t =>
    match startAttempt L0 lits (c :: t) with
    | some caps => some caps
    | none => matchPat L0 lits t

/-- Reassemble `g₁ ++ lit₁ ++ g₂ ++ ... ++ litₖ ++ gₖ₊₁` (the part of the
full match after `lit₀`). -/
def interleave : List Str → List Str → Str
  | [], _ => []
  | c :: cs, [] => c ++ interleave cs []
  | c :: cs, L :: Ls => c ++ (L ++ interleave cs Ls)

/-- `id.match(pattern)`: `null` on failure, otherwise the array
`[full match, group 1, ..., group k+1]`. -/
def jsMatch (L0 : Str) (lits : List Str) (s : Str) : Option (List Str) :=
  (matchPat L0 lits s).map (fun caps => (L0 ++ interleave caps lits) :: caps)

/-! The literal pieces of the two patterns in `CosmosDBDatabase`. -/

def cosmosLit0 : Str := "subscriptions/".toList
def cosmosLit1 : Str := "resourceGroups/".toList
def cosmosLit2 : Str := "providers/".toList
def cosmosLit3 : Str := "databaseAccounts/".toList
def attachedLit : Str := "cosmosDBAttachedAccounts/".toList

/-- `CosmosDBDatabase.parseCosmos`. -/
def parseCosmos (id : Str) : Option (List Str) :=
  match jsMatch cosmosLit0 [cosmosLit1, cosmosLit2, cosmosLit3] id with
  | none => none
  | some ms => if ms.length < 5 then none else some ms

/-- `CosmosDBDatabase.parseAttached`. -/
def parseAttached (id : Str) : Option (List Str) :=
  match jsMatch attachedLit [] id with
  | none => none
  | some ms => if ms.length < 2 then none else some ms

/-- `CosmosDBDatabase.getLabel`: `parseCosmos(id) || parseAttached(id)`,
throwing `'Failed to parse connection id'` when both fail, and otherwise
returning `items[items.length - 1]`. -/
def getLabel (id : Str) : Except String Str :=
  match (parseCosmos id).orElse (fun _ => parseAttached id) with
  | none => Except.error "Failed to parse connection id"
  | some items => Except.ok (items.getLastD [])

structure CosmosDBDatabase where
  connectionId : Str
  label : Str
deriving DecidableEq

/-- The `CosmosDBDatabase` constructor: sets `label` from `getLabel`,
propagating the parse failure. -/
def CosmosDBDatabase.make (connectionId : Str) : Except String CosmosDBDatabase :=
  (getLabel connectionId).map (fun l => { connectionId := connectionId, label := l })

/-! Basic facts about `List.isPrefixOf`, `takeLine` and `List.drop`. -/

theorem isPrefixOf_append_self : ∀ (L r : Str), L.isPrefixOf (L ++ r) = true
  | [], _ => by simp [List.isPrefixOf]
  | c :: L, r => by
    simp only [List.cons_append, List.isPrefixOf, Bool.and_eq_true, beq_self_eq_true,
      true_and]
    exact isPrefixOf_append_self L r

theorem length_le_of_isPrefixOf : ∀ {L s : Str}, L.isPrefixOf s = true → L.length ≤ s.length
  | [], _, _ => Nat.zero_le _
  | c :: L, [], h => by simp [List.isPrefixOf] at h
  | c :: L, d :: s, h => by
    simp only [List.isPrefixOf, Bool.and_eq_true] at h
    simpa [List.length_cons] using Nat.succ_le_succ (length_le_of_isPrefixOf h.2)

theorem isPrefixOf_nil_eq_false {L : Str} (h : L ≠ []) : L.isPrefixOf ([] : Str) = false := by
  cases L with
  | nil => exact absurd rfl h
  | cons c t => rfl

theorem takeLine_eq_self : ∀ {s : Str}, (∀ c ∈ s, isLineTerm c = false) → takeLine s = s
  | [], _ => rfl
  | c :: t, h => by
    have hc : isLineTerm c = false := h c (by simp)
    have ht : takeLine t = t := takeLine_eq_self (fun d hd => h d (by simp [hd]))
    simp only [takeLine, List.takeWhile_cons, hc, Bool.not_false, if_true] at ht ⊢
    simp [ht]

theorem le_lineLen_append : ∀ (a x : Str), (∀ c ∈ a, isLineTerm c = false) →
    a.length ≤ lineLen (a ++ x)
  | [], x, _ => Nat.zero_le _
  | c :: t, x, h => by
    have hc : isLineTerm c = false := h c (by simp)
    have ht := le_lineLen_append t x (fun d hd => h d (by simp [hd]))
    simp only [lineLen, takeLine, List.cons_append, List.takeWhile_cons, hc,
      Bool.not_false, if_true, List.length_cons]
    exact Nat.succ_le_succ ht

theorem drop_len_append {u : Str} (v : Str) {n : Nat} (h : u.length = n) :
    (u ++ v).drop n = v := by
  subst h
  exact List.drop_left u v

theorem drop_append_len : ∀ (u v : Str) (n : Nat), (u ++ v).drop (u.length + n) = v.drop n
  | [], v, n => by simp
  | c :: u, v, n => by
    have h : (c :: u).length + n = (u.length + n) + 1 := by
      simp only [List.length_cons]
      omega
    rw [List.cons_append, h, List.drop_succ_cons]
    exact drop_append_len u v n

/-! Completeness and inversion lemmas for the backtracking matcher. -/

theorem attemptAt_isSome {L : Str} {next : Str → Option (List Str)} {s : Str} {m : Nat}
    (hpre : L.isPrefixOf (s.drop m) = true)
    (hnext : (next (s.drop (m + L.length))).isSome = true) :
    (attemptAt L next s m).isSome = true := by
  obtain ⟨caps, hc⟩ := Option.isSome_iff_exists.mp hnext
  simp [attemptAt, hpre, hc]

theorem attemptAt_eq_some {L : Str} {next : Str → Option (List Str)} {s : Str} {n : Nat}
    {caps : List Str} (h : attemptAt L next s n = some caps) :
    L.isPrefixOf (s.drop n) = true ∧
      ∃ caps', next (s.drop (n + L.length)) = some caps' ∧ caps = s.take n :: caps' := by
  by_cases hpre : L.isPrefixOf (s.drop n) = true
  · refine ⟨hpre, ?_⟩
    rw [attemptAt, if_pos hpre] at h
    cases hn : next (s.drop (n + L.length)) with
    | none => rw [hn] at h; exact absurd h (by simp)
    | some caps' =>
      rw [hn] at h
      simp only [Option.some.injEq] at h
      exact ⟨caps', rfl, h.symm⟩
  · rw [attemptAt, if_neg hpre] at h
    exact absurd h (by simp)

theorem tryCaps_isSome {L : Str} {next : Str → Option (List Str)} {s : Str} {m : Nat}
    (hpre : L.isPrefixOf (s.drop m) = true)
    (hnext : (next (s.drop (m + L.length))).isSome = true) :
    ∀ {n : Nat}, m ≤ n → (tryCaps L next s n).isSome = true := by
  intro n
  induction n with
  | zero =>
    intro hm
    have hm0 : m = 0 := Nat.le_zero.mp hm
    subst hm0
    simpa [tryCaps] using attemptAt_isSome hpre hnext
  | succ n ih =>
    intro hm
    cases ha : attemptAt L next s (n + 1) with
    | some caps => simp [tryCaps, ha]
    | none =>
      rcases Nat.lt_or_ge m (n + 1) with hlt | hge
      · simpa [tryCaps, ha] using ih (Nat.lt_succ_iff.mp hlt)
      · have heq : m = n + 1 := Nat.le_antisymm hm hge
        subst heq
        have h2 := attemptAt_isSome hpre hnext
        rw [ha] at h2
        simp at h2

theorem tryCaps_eq_some {L : Str} {next : Str → Option (List Str)} {s : Str} :
    ∀ {n : Nat} {caps : List Str}, tryCaps L next s n = some caps →
      ∃ m, m ≤ n ∧ L.isPrefixOf (s.drop m) = true ∧
        ∃ caps', next (s.drop (m + L.length)) = some caps' ∧ caps = s.take m :: caps' := by
  intro n
  induction n with
  | zero =>
    intro caps h
    rw [tryCaps] at h
    obtain ⟨hpre, caps', hnext, hcaps⟩ := attemptAt_eq_some h
    exact ⟨0, Nat.le_refl 0, hpre, caps', hnext, hcaps⟩
  | succ n ih =>
    intro caps h
    rw [tryCaps] at h
    cases ha : attemptAt L next s (n + 1) with
    | some caps0 =>
      rw [ha] at h
      simp only [Option.some.injEq] at h
      subst h
      obtain ⟨hpre, caps', hnext, hcaps⟩ := attemptAt_eq_some ha
      exact ⟨n + 1, Nat.le_refl _, hpre, caps', hnext, hcaps⟩
    | none =>
      rw [ha] at h
      obtain ⟨m, hm, rest⟩ := ih h
      exact ⟨m, Nat.le_succ_of_le hm, rest⟩

theorem groupsMatch_nil (s : Str) : groupsMatch [] s = some [takeLine s] := rfl

theorem groupsMatch_cons_isSome {L : Str} {lits : List Str} {t : Str} {m : Nat}
    (hm : m ≤ lineLen t)
    (hpre : L.isPrefixOf (t.drop m) = true)
    (hnext : (groupsMatch lits (t.drop (m + L.length))).isSome = true) :
    (groupsMatch (L :: lits) t).isSome = true := by
  rw [groupsMatch]
  exact tryCaps_isSome hpre hnext hm

theorem groupsMatch_cons_eq_some {L : Str} {lits : List Str} {t : Str} {caps : List Str}
    (h : groupsMatch (L :: lits) t = some caps) :
    ∃ m, L.isPrefixOf (t.drop m) = true ∧
      ∃ caps', groupsMatch lits (t.drop (m + L.length)) = some caps' ∧
        caps = t.take m :: caps' := by
  rw [groupsMatch] at h
  obtain ⟨m, _, hpre, caps', hnext, hcaps⟩ := tryCaps_eq_some h
  exact ⟨m, hpre, caps', hnext, hcaps⟩

theorem matchPat_of_startAttempt {L0 : Str} {lits : List Str} {s : Str} {caps : List Str}
    (h : startAttempt L0 lits s = some caps) : matchPat L0 lits s = some caps := by
  cases s with
  | nil => rw [matchPat]; exact h
  | cons c t => rw [matchPat, h]

theorem matchPat_eq_some {L0 : Str} {lits : List Str} :
    ∀ {s : Str} {caps : List Str}, matchPat L0 lits s = some caps →
      ∃ i, L0.isPrefixOf (s.drop i) = true ∧
        groupsMatch lits ((s.drop i).drop L0.length) = some caps
  | [], caps, h => by
    rw [matchPat] at h
    by_cases hpre : L0.isPrefixOf ([] : Str) = true
    · rw [startAttempt, if_pos hpre] at h
      exact ⟨0, by simpa using hpre, by simpa using h⟩
    · rw [startAttempt, if_neg hpre] at h
      exact absurd h (by simp)
  | c :: t, caps, h => by
    rw [matchPat] at h
    cases ha : startAttempt L0 lits (c :: t) with
    | some caps0 =>
      rw [ha] at h
      simp only [Option.some.injEq] at h
      subst h
      by_cases hpre : L0.isPrefixOf (c :: t) = true
      · rw [startAttempt, if_pos hpre] at ha
        exact ⟨0, by simpa using hpre, by simpa using ha⟩
      · rw [startAttempt, if_neg hpre] at ha
        exact absurd ha (by simp)
    | none =>
      rw [ha] at h
      obtain ⟨i, hpre, hg⟩ := matchPat_eq_some (s := t) h
      exact ⟨i + 1, by simpa using hpre, by simpa using hg⟩

theorem matchPat_eq_none {L0 : Str} (lits : List Str) :
    ∀ {s : Str}, (∀ m, L0.isPrefixOf (s.drop m) = false) → matchPat L0 lits s = none
  | [], h => by
    have h0 := h 0
    simp only [List.drop_zero] at h0
    rw [matchPat, startAttempt, if_neg (by simp [h0])]
  | c :: t, h => by
    have h0 := h 0
    simp only [List.drop_zero] at h0
    have ht : ∀ m, L0.isPrefixOf (t.drop m) = false := fun m => by
      simpa using h (m + 1)
    rw [matchPat, startAttempt, if_neg (by simp [h0])]
    exact matchPat_eq_none lits ht

/-! Well-formed connection ids and the label they parse to. -/

/-- A well-formed Cosmos ARM resource id:
`subscriptions/<s>resourceGroups/<g>providers/<p>databaseAccounts/<name>`. -/
def cosmosId (s g p name : Str) : Str :=
  cosmosLit0 ++ (s ++ (cosmosLit1 ++ (g ++ (cosmosLit2 ++ (p ++ (cosmosLit3 ++ name))))))

/-- A well-formed attached-account id: `cosmosDBAttachedAccounts/<name>`. -/
def attachedId (name : Str) : Str := attachedLit ++ name

/-- The position of the literal `databaseAccounts/` in a well-formed Cosmos id. -/
def cosmosNamePos (s g p : Str) : Nat :=
  cosmosLit0.length + (s.length + (cosmosLit1.length + (g.length +
    (cosmosLit2.length + p.length))))

/-- Well-formedness of the Cosmos id shape: no line terminators (JavaScript
`.` does not cross them), `<name>` is a path segment (no `/`), and
`databaseAccounts/` occurs only as the literal introduced by the shape. -/
abbrev WfCosmos (s g p name : Str) : Prop :=
  (∀ c ∈ cosmosId s g p name, isLineTerm c = false) ∧
  (∀ c ∈ name, c ≠ '/') ∧
  (∀ m, m < (cosmosId s g p name).length →
    cosmosLit3.isPrefixOf ((cosmosId s g p name).drop m) = true →
    m = cosmosNamePos s g p)

/-- Well-formedness of the attached-account id shape: no line terminators in
`<name>`, `<name>` is a path segment, and the id does not contain
`subscriptions/` (so the Cosmos pattern cannot fire first). -/
abbrev WfAttached (name : Str) : Prop :=
  (∀ c ∈ name, isLineTerm c = false) ∧
  (∀ c ∈ name, c ≠ '/') ∧
  (∀ m, m < (attachedId name).length →
    cosmosLit0.isPrefixOf ((attachedId name).drop m) = false)

theorem groupsMatch_append_isSome (L : Str) (lits : List Str) (a b : Str)
    (hnl : ∀ c ∈ a, isLineTerm c = false)
    (hnext : (groupsMatch lits b).isSome = true) :
    (groupsMatch (L :: lits) (a ++ (L ++ b))).isSome = true := by
  apply groupsMatch_cons_isSome (m := a.length)
  · exact le_lineLen_append a (L ++ b) hnl
  · rw [drop_len_append (L ++ b) rfl]
    exact isPrefixOf_append_self L b
  · have hdrop : (a ++ (L ++ b)).drop (a.length + L.length) = b := by
      rw [← List.append_assoc]
      exact drop_len_append b (by simp [List.length_append])
    rw [hdrop]
    exact hnext

theorem parseCosmos_wf (s g p name : Str) (hw : WfCosmos s g p name) :
    ∃ full a b c, parseCosmos (cosmosId s g p name) = some [full, a, b, c, name] := by
  obtain ⟨hnl, hseg, huniq⟩ := hw
  have hnl_s : ∀ c ∈ s, isLineTerm c = false := fun c hc =>
    hnl c (by simp [cosmosId, List.mem_append, hc])
  have hnl_g : ∀ c ∈ g, isLineTerm c = false := fun c hc =>
    hnl c (by simp [cosmosId, List.mem_append, hc])
  have hnl_p : ∀ c ∈ p, isLineTerm c = false := fun c hc =>
    hnl c (by simp [cosmosId, List.mem_append, hc])
  have hnl_name : ∀ c ∈ name, isLineTerm c = false := fun c hc =>
    hnl c (by simp [cosmosId, List.mem_append, hc])
  -- the tail of the id after the leading literal
  set t : Str := s ++ (cosmosLit1 ++ (g ++ (cosmosLit2 ++ (p ++ (cosmosLit3 ++ name)))))
    with ht_def
  have hid : cosmosId s g p name = cosmosLit0 ++ t := rfl
  -- the groups succeed on the tail
  have hsome : (groupsMatch [cosmosLit1, cosmosLit2, cosmosLit3] t).isSome = true := by
    apply groupsMatch_append_isSome _ _ _ _ hnl_s
    apply groupsMatch_append_isSome _ _ _ _ hnl_g
    apply groupsMatch_append_isSome _ _ _ _ hnl_p
    simp [groupsMatch_nil]
  obtain ⟨caps, hcaps⟩ := Option.isSome_iff_exists.mp hsome
  -- hence the whole pattern matches at position 0
  have hstart : startAttempt cosmosLit0 [cosmosLit1, cosmosLit2, cosmosLit3]
      (cosmosId s g p name) = some caps := by
    rw [startAttempt, hid, if_pos (isPrefixOf_append_self cosmosLit0 t),
      drop_len_append t rfl]
    exact hcaps
  have hmp := matchPat_of_startAttempt hstart
  -- invert the successful match to locate the last capture
  obtain ⟨m1, hp1, caps1, hg1, hc1⟩ := groupsMatch_cons_eq_some hcaps
  obtain ⟨m2, hp2, caps2, hg2, hc2⟩ := groupsMatch_cons_eq_some hg1
  obtain ⟨m3, hp3, caps3, hg3, hc3⟩ := groupsMatch_cons_eq_some hg2
  rw [groupsMatch_nil] at hg3
  simp only [Option.some.injEq] at hg3
  -- compose the nested drops into a single position inside `t`
  set Mt : Nat := m1 + cosmosLit1.length + (m2 + cosmosLit2.length) + m3 with hMt_def
  have hcomp : ((t.drop (m1 + cosmosLit1.length)).drop (m2 + cosmosLit2.length)).drop m3
      = t.drop Mt := by
    rw [List.drop_drop, List.drop_drop]
    congr 1
    omega
  have hp3t : cosmosLit3.isPrefixOf (t.drop Mt) = true := by
    rw [← hcomp]
    exact hp3
  -- the same position inside the whole id
  have hp3' : cosmosLit3.isPrefixOf
      ((cosmosId s g p name).drop (cosmosLit0.length + Mt)) = true := by
    rw [hid, drop_append_len cosmosLit0 t Mt]
    exact hp3t
  have hMlt : cosmosLit0.length + Mt < (cosmosId s g p name).length := by
    have hlen := length_le_of_isPrefixOf hp3'
    rw [List.length_drop] at hlen
    have hpos : 0 < cosmosLit3.length := by decide
    omega
  have hMeq : cosmosLit0.length + Mt = cosmosNamePos s g p :=
    huniq (cosmosLit0.length + Mt) hMlt hp3'
  -- the final capture is exactly `name`
  have hfincomp : ((t.drop (m1 + cosmosLit1.length)).drop (m2 + cosmosLit2.length)).drop
      (m3 + cosmosLit3.length) = t.drop (Mt + cosmosLit3.length) := by
    rw [List.drop_drop, List.drop_drop]
    congr 1
    omega
  have hshape : t = (s ++ cosmosLit1 ++ g ++ cosmosLit2 ++ p ++ cosmosLit3) ++ name := by
    simp [ht_def, List.append_assoc]
  have hplen : cosmosNamePos s g p =
      cosmosLit0.length + (s.length + (cosmosLit1.length + (g.length +
        (cosmosLit2.length + p.length)))) := rfl
  have hfinal : t.drop (Mt + cosmosLit3.length) = name := by
    rw [hshape]
    apply drop_len_append
    simp only [List.length_append]
    omega
  rw [hfincomp, hfinal] at hg3
  have hname : caps3 = [name] := by
    rw [← hg3, takeLine_eq_self hnl_name]
  subst hname hc3 hc2 hc1
  -- assemble `parseCosmos`
  refine ⟨cosmosLit0 ++ interleave
      [t.take m1, (t.drop (m1 + cosmosLit1.length)).take m2,
        ((t.drop (m1 + cosmosLit1.length)).drop (m2 + cosmosLit2.length)).take m3, name]
      [cosmosLit1, cosmosLit2, cosmosLit3],
    t.take m1, (t.drop (m1 + cosmosLit1.length)).take m2,
    ((t.drop (m1 + cosmosLit1.length)).drop (m2 + cosmosLit2.length)).take m3, ?_⟩
  unfold parseCosmos jsMatch
  rw [hmp]
  rfl

theorem getLabel_cosmosId (s g p name : Str) (hw : WfCosmos s g p name) :
    getLabel (cosmosId s g p name) = Except.ok name := by
  obtain ⟨full, a, b, c, hpc⟩ := parseCosmos_wf s g p name hw
  rw [getLabel, hpc]
  simp [Option.orElse, List.getLastD]

theorem getLabel_attachedId (name : Str) (hw : WfAttached name) :
    getLabel (attachedId name) = Except.ok name := by
  obtain ⟨hnl, hseg, hnosub⟩ := hw
  have hAll : ∀ m, cosmosLit0.isPrefixOf ((attachedId name).drop m) = false := by
    intro m
    rcases Nat.lt_or_ge m (attachedId name).length with hlt | hge
    · exact hnosub m hlt
    · rw [List.drop_eq_nil_of_le hge]
      exact isPrefixOf_nil_eq_false (by decide)
  have hpc : parseCosmos (attachedId name) = none := by
    rw [parseCosmos, jsMatch,
      matchPat_eq_none [cosmosLit1, cosmosLit2, cosmosLit3] hAll]
    rfl
  have hsa : startAttempt attachedLit [] (attachedId name) = some [name] := by
    rw [startAttempt, attachedId, if_pos (isPrefixOf_append_self attachedLit name),
      drop_len_append name rfl, groupsMatch_nil, takeLine_eq_self hnl]
  have hpa : parseAttached (attachedId name) = some [attachedLit ++ name, name] := by
    rw [parseAttached, jsMatch, matchPat_of_startAttempt hsa]
    simp [interleave]
  rw [getLabel, hpc, hpa]
  simp [Option.orElse, List.getLastD]

/-- Claim C1: for every well-formed Cosmos ARM resource id of the shape
`subscriptions/<s>resourceGroups/<g>providers/<p>databaseAccounts/<name>`,
constructing a `CosmosDBDatabase` sets its label to the last path segment
`<name>`; likewise, for every well-formed attached-account id of the shape
`cosmosDBAttachedAccounts/<name>`, the label is set to `<name>`. -/
theorem cosmosDBDatabase_label_lastSegment :
    (∀ s g p name : Str, WfCosmos s g p name →
      CosmosDBDatabase.make (cosmosId s g p name) =
        Except.ok { connectionId := cosmosId s g p name, label := name }) ∧
    (∀ name : Str, WfAttached name →
      CosmosDBDatabase.make (attachedId name) =
        Except.ok { connectionId := attachedId name, label := name }) := by
  constructor
  · intro s g p name hw
    rw [CosmosDBDatabase.make, getLabel_cosmosId s g p name hw]
    rfl
  · intro name hw
    rw [CosmosDBDatabase.make, getLabel_attachedId name hw]
    rfl

/-- A concrete well-formed Cosmos ARM resource id used as a witness input. -/
def cosmosExample : Str :=
  cosmosId "sub1/".toList "rg/".toList "Microsoft.DocumentDB/".toList "acct".toList

/-- A concrete well-formed attached-account id used as a witness input. -/
def attachedExample : Str := attachedId "local1".toList

theorem cosmosDBDatabase_label_lastSegment_witness :
    WfCosmos "sub1/".toList "rg/".toList "Microsoft.DocumentDB/".toList "acct".toList ∧
    WfAttached "local1".toList ∧
    CosmosDBDatabase.make cosmosExample =
      Except.ok { connectionId := cosmosExample, label := "acct".toList } ∧
    CosmosDBDatabase.make attachedExample =
      Except.ok { connectionId := attachedExample, label := "local1".toList } :=
  ⟨by decide, by decide,
    cosmosDBDatabase_label_lastSegment.1 _ _ _ _ (by decide),
    cosmosDBDatabase_label_lastSegment.2 _ (by decide)⟩

/-- Claim C2: for every connection id that matches neither the Cosmos ARM
resource-id pattern nor the attached-account pattern, constructing a
`CosmosDBDatabase` raises the parse failure `Failed to parse connection id`
instead of producing a label. -/
theorem cosmosDBDatabase_unparsable_error (id : Str)
    (h1 : parseCosmos id = none) (h2 : parseAttached id = none) :
    CosmosDBDatabase.make id = Except.error "Failed to parse connection id" := by
  unfold CosmosDBDatabase.make getLabel
  rw [h1]
  simp [Option.orElse, h2, Except.map]

theorem cosmosDBDatabase_unparsable_error_witness :
    parseCosmos "foo".toList = none ∧ parseAttached "foo".toList = none ∧
    CosmosDBDatabase.make "foo".toList =
      Except.error "Failed to parse connection id" :=
  ⟨by decide, by decide, cosmosDBDatabase_unparsable_error _ (by decide) (by decide)⟩

/-! `SiteNodeBase.localGitDeploy`, embedded as a function from its environment
(SDK call results, workspace state, dialog responses, git outcomes) to the
promise outcome together with the ordered trace of observable effects. -/

/-- `hay.indexOf(needle) >= 0`: `needle` occurs as a substring of `hay`. -/
def isSubstrOf (needle : Str) : Str → Bool
  | [] => needle.isPrefixOf []
  | c :: t => needle.isPrefixOf (c :: t) || isSubstrOf needle t

def strContains (hay needle : String) : Bool := isSubstrOf needle.toList hay.toList

/-- Observable effects of `localGitDeploy`, in order of occurrence. -/
inductive SiteEffect
  | showErrorMessage (msg : String) (items : List String)
  | showWarningMessage (msg : String)
  | openInPortal
  | openUrl (url : String)
  | gitInit (cwd : String)
  | gitPush (cwd remote branch : String)
  | gitForcePush (cwd remote branch : String)
deriving DecidableEq

/-- The environment `localGitDeploy` runs against: the site configuration,
publishing credentials and deployment ids fetched from the SDK, the workspace
state, the user's dialog responses, and the outcomes of the git child
processes (`none` = success, `some msg` = rejection with message `msg`). -/
structure GitEnv where
  scmType : String
  publishingUserName : String
  publishingPassword : String
  enabledHostNames : List String
  repositorySiteName : String
  oldDeploymentId : String
  newDeploymentId : String
  rootPath : Option String
  response : String → Option String
  gitInitError : Option String
  gitPushError : Option String
  gitForcePushError : Option String

def notSetUpMsg : String :=
  "Local Git Deployment is not set up. Set it up in the Azure Portal."
def noFolderMsg : String := "You have not yet opened a folder to deploy."
def gitInstallMsg : String := "Git must be installed to use Local Git Deploy."
def forcePushMsg : String := "Push rejected due to Git history diverging. Force push?"
def gitDownloadUrl : String := "https://git-scm.com/downloads"

def repoCurrentMsg (repo : String) : String :=
  "Local Git repo is current with \"" ++ repo ++ "\"."

/-- `${this.site.enabledHostNames[1]}:443/${this.site.repositorySiteName}.git`
(a missing index renders as `undefined` in a template literal). -/
def repoOf (env : GitEnv) : String :=
  env.enabledHostNames.getD 1 "undefined" ++ ":443/" ++ env.repositorySiteName ++ ".git"

/-- `https://${username}:${password}@${repo}`. -/
def remoteOf (env : GitEnv) : String :=
  "https://" ++ env.publishingUserName ++ ":" ++ env.publishingPassword ++ "@" ++
    repoOf env

/-- The tail of `localGitDeploy`: compare the latest deployment id with the one
recorded before the push; warn and throw when unchanged, else resolve `true`. -/
def deployCheck (env : GitEnv) (effs : List SiteEffect) :
    Except String (Option Bool) × List SiteEffect :=
  if env.newDeploymentId = env.oldDeploymentId then
    (Except.error (repoCurrentMsg (repoOf env)),
      effs ++ [SiteEffect.showWarningMessage (repoCurrentMsg (repoOf env))])
  else
    (Except.ok (some true), effs)

/-- The `catch` block of `localGitDeploy` around `git init`/`git push`:
`spawn git ENOENT` is checked first, then `error: failed to push` (optionally
recovered by a force push, which continues into the deployment check), and any
other error is rethrown unchanged. -/
def handleGitError (env : GitEnv) (cwd : String) (effs : List SiteEffect)
    (e : String) : Except String (Option Bool) × List SiteEffect :=
  if strContains e "spawn git ENOENT" then
    (Except.error e,
      effs ++ [SiteEffect.showErrorMessage gitInstallMsg ["Install"]] ++
        (if env.response gitInstallMsg = some "Install" then
          [SiteEffect.openUrl gitDownloadUrl] else []))
  else if strContains e "error: failed to push" then
    if env.response forcePushMsg = some "Yes" then
      match env.gitForcePushError with
      | some e2 =>
        (Except.error e2,
          effs ++ [SiteEffect.showErrorMessage forcePushMsg ["Yes"],
            SiteEffect.gitForcePush cwd (remoteOf env) "master"])
      | none =>
        deployCheck env
          (effs ++ [SiteEffect.showErrorMessage forcePushMsg ["Yes"],
            SiteEffect.gitForcePush cwd (remoteOf env) "master"])
    else
      (Except.error e, effs ++ [SiteEffect.showErrorMessage forcePushMsg ["Yes"]])
  else
    (Except.error e, effs)

/-- `SiteNodeBase.localGitDeploy`: outcome (`ok (some true)` = resolved with
`true`, `ok none` = resolved with `undefined` via the bare `return;`,
`error` = rejected) paired with the ordered effect trace. -/
def localGitDeploy (env : GitEnv) : Except String (Option Bool) × List SiteEffect :=
  if env.scmType ≠ "LocalGit" then
    (Except.error notSetUpMsg,
      [SiteEffect.showErrorMessage notSetUpMsg ["Go to Portal"]] ++
        (if env.response notSetUpMsg = some "Go to Portal" then
          [SiteEffect.openInPortal] else []))
  else
    match env.rootPath with
    | none => (Except.ok none, [SiteEffect.showErrorMessage noFolderMsg []])
    | some cwd =>
      match env.gitInitError with
      | some e => handleGitError env cwd [SiteEffect.gitInit cwd] e
      | none =>
        match env.gitPushError with
        | some e =>
          handleGitError env cwd
            [SiteEffect.gitInit cwd, SiteEffect.gitPush cwd (remoteOf env) "master"] e
        | none =>
          deployCheck env
            [SiteEffect.gitInit cwd, SiteEffect.gitPush cwd (remoteOf env) "master"]

/-- Effects corresponding to spawning a git child process. -/
def isGitEffect : SiteEffect → Bool
  | SiteEffect.gitInit _ => true
  | SiteEffect.gitPush _ _ _ => true
  | SiteEffect.gitForcePush _ _ _ => true
  | _ => false

/-- The optional `opn` of the Git download page after the install dialog. -/
def installChoice (env : GitEnv) : List SiteEffect :=
  if env.response gitInstallMsg = some "Install" then [SiteEffect.openUrl gitDownloadUrl]
  else []

theorem localGitDeploy_eq_initFail {env : GitEnv} {cwd e : String}
    (h1 : env.scmType = "LocalGit") (h2 : env.rootPath = some cwd)
    (h3 : env.gitInitError = some e) :
    localGitDeploy env = handleGitError env cwd [SiteEffect.gitInit cwd] e := by
  unfold localGitDeploy
  rw [if_neg (by simp [h1]), h2, h3]

theorem localGitDeploy_eq_pushFail {env : GitEnv} {cwd e : String}
    (h1 : env.scmType = "LocalGit") (h2 : env.rootPath = some cwd)
    (h3 : env.gitInitError = none) (h4 : env.gitPushError = some e) :
    localGitDeploy env = handleGitError env cwd
      [SiteEffect.gitInit cwd, SiteEffect.gitPush cwd (remoteOf env) "master"] e := by
  unfold localGitDeploy
  rw [if_neg (by simp [h1]), h2, h3, h4]

theorem localGitDeploy_eq_pushOk {env : GitEnv} {cwd : String}
    (h1 : env.scmType = "LocalGit") (h2 : env.rootPath = some cwd)
    (h3 : env.gitInitError = none) (h4 : env.gitPushError = none) :
    localGitDeploy env = deployCheck env
      [SiteEffect.gitInit cwd, SiteEffect.gitPush cwd (remoteOf env) "master"] := by
  unfold localGitDeploy
  rw [if_neg (by simp [h1]), h2, h3, h4]

/-- Claim C3: for every site whose fetched configuration has `scmType`
different from `LocalGit`, `localGitDeploy` shows the error dialog stating
that Local Git Deployment is not set up with a `Go to Portal` remedial action
(opening the portal if chosen) and then throws, without invoking git init or
git push. -/
theorem localGitDeploy_notSetUp (env : GitEnv) (h : env.scmType ≠ "LocalGit") :
    localGitDeploy env =
      (Except.error notSetUpMsg,
        [SiteEffect.showErrorMessage notSetUpMsg ["Go to Portal"]] ++
          (if env.response notSetUpMsg = some "Go to Portal" then
            [SiteEffect.openInPortal] else [])) ∧
    (localGitDeploy env).2.all (fun eff => !isGitEffect eff) = true := by
  constructor
  · unfold localGitDeploy
    rw [if_pos h]
  · unfold localGitDeploy
    rw [if_pos h]
    by_cases hr : env.response notSetUpMsg = some "Go to Portal"
    · simp [hr, isGitEffect]
    · simp [hr, isGitEffect]

/-- Claim C4: if the git init/push step fails with an error whose message
contains `spawn git ENOENT`, `localGitDeploy` shows the dialog
`Git must be installed to use Local Git Deploy.` with an `Install` remedial
action (opening the Git download page if chosen) and rethrows the error. -/
theorem localGitDeploy_gitNotInstalled (env : GitEnv) (cwd e : String)
    (h1 : env.scmType = "LocalGit") (h2 : env.rootPath = some cwd)
    (he : strContains e "spawn git ENOENT" = true) :
    (env.gitInitError = some e →
      localGitDeploy env = (Except.error e,
        [SiteEffect.gitInit cwd,
          SiteEffect.showErrorMessage gitInstallMsg ["Install"]] ++
            installChoice env)) ∧
    (env.gitInitError = none → env.gitPushError = some e →
      localGitDeploy env = (Except.error e,
        [SiteEffect.gitInit cwd, SiteEffect.gitPush cwd (remoteOf env) "master",
          SiteEffect.showErrorMessage gitInstallMsg ["Install"]] ++
            installChoice env)) := by
  constructor
  · intro hi
    rw [localGitDeploy_eq_initFail h1 h2 hi]
    unfold handleGitError installChoice
    rw [if_pos he]
    simp
  · intro hi hp
    rw [localGitDeploy_eq_pushFail h1 h2 hi hp]
    unfold handleGitError installChoice
    rw [if_pos he]
    simp

/-- Claim C5 (amended): if the git push step fails with an error whose message
contains `error: failed to push` and does not contain `spawn git ENOENT`, the
method asks `Push rejected due to Git history diverging. Force push?`; on
`Yes` it performs a force push of `master` to the same remote, otherwise it
rethrows the error; any error matching neither recognized substring is
rethrown unchanged. -/
theorem localGitDeploy_pushRejected (env : GitEnv) (cwd e : String)
    (h1 : env.scmType = "LocalGit") (h2 : env.rootPath = some cwd)
    (h3 : env.gitInitError = none) (h4 : env.gitPushError = some e)
    (hnoent : strContains e "spawn git ENOENT" = false) :
    (strContains e "error: failed to push" = true →
      (env.response forcePushMsg = some "Yes" →
        SiteEffect.showErrorMessage forcePushMsg ["Yes"] ∈ (localGitDeploy env).2 ∧
        SiteEffect.gitForcePush cwd (remoteOf env) "master" ∈ (localGitDeploy env).2) ∧
      (env.response forcePushMsg ≠ some "Yes" →
        localGitDeploy env = (Except.error e,
          [SiteEffect.gitInit cwd, SiteEffect.gitPush cwd (remoteOf env) "master",
            SiteEffect.showErrorMessage forcePushMsg ["Yes"]]))) ∧
    (strContains e "error: failed to push" = false →
      localGitDeploy env = (Except.error e,
        [SiteEffect.gitInit cwd, SiteEffect.gitPush cwd (remoteOf env) "master"])) := by
  rw [localGitDeploy_eq_pushFail h1 h2 h3 h4]
  constructor
  · intro hfp
    constructor
    · intro hyes
      unfold handleGitError deployCheck
      rw [if_neg (by simp [hnoent]), if_pos hfp, if_pos hyes]
      cases env.gitForcePushError with
      | some e2 => simp
      | none =>
        by_cases hdep : env.newDeploymentId = env.oldDeploymentId
        · rw [if_pos hdep]
          simp
        · rw [if_neg hdep]
          simp
    · intro hno
      unfold handleGitError
      rw [if_neg (by simp [hnoent]), if_pos hfp, if_neg hno]
      simp
  · intro hfp
    unfold handleGitError
    rw [if_neg (by simp [hnoent]), if_neg (by simp [hfp])]

theorem deployCheck_fst_ok {env : GitEnv} {effs : List SiteEffect}
    (h : (deployCheck env effs).1 = Except.ok (some true)) :
    env.newDeploymentId ≠ env.oldDeploymentId := by
  unfold deployCheck at h
  by_cases hdep : env.newDeploymentId = env.oldDeploymentId
  · rw [if_pos hdep] at h
    simp at h
  · exact hdep

theorem handleGitError_fst_ok {env : GitEnv} {cwd : String} {effs : List SiteEffect}
    {e : String} (h : (handleGitError env cwd effs e).1 = Except.ok (some true)) :
    env.newDeploymentId ≠ env.oldDeploymentId := by
  unfold handleGitError at h
  by_cases hno : strContains e "spawn git ENOENT" = true
  · rw [if_pos hno] at h
    simp at h
  · rw [if_neg hno] at h
    by_cases hfp : strContains e "error: failed to push" = true
    · rw [if_pos hfp] at h
      by_cases hyes : env.response forcePushMsg = some "Yes"
      · rw [if_pos hyes] at h
        cases hforce : env.gitForcePushError with
        | some e2 => rw [hforce] at h; simp at h
        | none => rw [hforce] at h; exact deployCheck_fst_ok h
      · rw [if_neg hyes] at h
        simp at h
    · rw [if_neg hfp] at h
      simp at h

theorem localGitDeploy_fst_ok {env : GitEnv}
    (h : (localGitDeploy env).1 = Except.ok (some true)) :
    env.newDeploymentId ≠ env.oldDeploymentId := by
  unfold localGitDeploy at h
  by_cases hscm : env.scmType ≠ "LocalGit"
  · rw [if_pos hscm] at h
    simp at h
  · rw [if_neg hscm] at h
    cases hroot : env.rootPath with
    | none => rw [hroot] at h; simp at h
    | some cwd =>
      rw [hroot] at h
      cases hinit : env.gitInitError with
      | some e => rw [hinit] at h; exact handleGitError_fst_ok h
      | none =>
        rw [hinit] at h
        cases hpush : env.gitPushError with
        | some e => rw [hpush] at h; exact handleGitError_fst_ok h
        | none => rw [hpush] at h; exact deployCheck_fst_ok h

/-- Claim C6: after the push, `localGitDeploy` compares the latest deployment
id with the one recorded before the push: if they are equal it shows the
warning `Local Git repo is current with "<repo>".` and throws; it returns
`true` only when the latest deployment id has changed. -/
theorem localGitDeploy_deploymentCheck (env : GitEnv) (cwd : String)
    (h1 : env.scmType = "LocalGit") (h2 : env.rootPath = some cwd)
    (h3 : env.gitInitError = none) (h4 : env.gitPushError = none) :
    (env.newDeploymentId = env.oldDeploymentId →
      localGitDeploy env = (Except.error (repoCurrentMsg (repoOf env)),
        [SiteEffect.gitInit cwd, SiteEffect.gitPush cwd (remoteOf env) "master",
          SiteEffect.showWarningMessage (repoCurrentMsg (repoOf env))])) ∧
    (env.newDeploymentId ≠ env.oldDeploymentId →
      localGitDeploy env = (Except.ok (some true),
        [SiteEffect.gitInit cwd, SiteEffect.gitPush cwd (remoteOf env) "master"])) ∧
    (∀ env' : GitEnv, (localGitDeploy env').1 = Except.ok (some true) →
      env'.newDeploymentId ≠ env'.oldDeploymentId) := by
  refine ⟨?_, ?_, fun env' h => localGitDeploy_fst_ok h⟩
  · intro hdep
    rw [localGitDeploy_eq_pushOk h1 h2 h3 h4]
    unfold deployCheck
    rw [if_pos hdep]
    simp
  · intro hdep
    rw [localGitDeploy_eq_pushOk h1 h2 h3 h4]
    unfold deployCheck
    rw [if_neg hdep]

theorem handleGitError_effects (env : GitEnv) (cwd : String) (effs : List SiteEffect)
    (e : String) : ∃ rest, (handleGitError env cwd effs e).2 = effs ++ rest := by
  unfold handleGitError deployCheck
  by_cases hno : strContains e "spawn git ENOENT" = true
  · rw [if_pos hno]
    exact ⟨_, (List.append_assoc _ _ _)⟩
  · rw [if_neg hno]
    by_cases hfp : strContains e "error: failed to push" = true
    · rw [if_pos hfp]
      by_cases hyes : env.response forcePushMsg = some "Yes"
      · rw [if_pos hyes]
        cases env.gitForcePushError with
        | some e2 => exact ⟨_, rfl⟩
        | none =>
          by_cases hdep : env.newDeploymentId = env.oldDeploymentId
          · rw [if_pos hdep]
            exact ⟨_, (List.append_assoc _ _ _)⟩
          · rw [if_neg hdep]
            exact ⟨_, rfl⟩
      · rw [if_neg hyes]
        exact ⟨_, rfl⟩
    · rw [if_neg hfp]
      exact ⟨[], (List.append_nil _).symm⟩

theorem deployCheck_effects (env : GitEnv) (effs : List SiteEffect) :
    ∃ rest, (deployCheck env effs).2 = effs ++ rest := by
  unfold deployCheck
  by_cases hdep : env.newDeploymentId = env.oldDeploymentId
  · rw [if_pos hdep]
    exact ⟨_, rfl⟩
  · rw [if_neg hdep]
    exact ⟨[], (List.append_nil _).symm⟩

/-- Claim C7: when the LocalGit check passes and a workspace folder is open,
`localGitDeploy` runs git init in the workspace root and then pushes branch
`master` to the remote
`https://<publishingUserName>:<publishingPassword>@<enabledHostNames[1]>:443/<repositorySiteName>.git`. -/
theorem localGitDeploy_initThenPush (env : GitEnv) (cwd hostScm : String)
    (h1 : env.scmType = "LocalGit") (h2 : env.rootPath = some cwd)
    (h3 : env.enabledHostNames.get? 1 = some hostScm)
    (h4 : env.gitInitError = none) :
    remoteOf env = "https://" ++ env.publishingUserName ++ ":" ++
      env.publishingPassword ++ "@" ++
      (hostScm ++ ":443/" ++ env.repositorySiteName ++ ".git") ∧
    (localGitDeploy env).2.take 2 =
      [SiteEffect.gitInit cwd, SiteEffect.gitPush cwd (remoteOf env) "master"] := by
  constructor
  · unfold remoteOf repoOf
    rw [List.getD, h3]
    rfl
  · cases hp : env.gitPushError with
    | some e =>
      rw [localGitDeploy_eq_pushFail h1 h2 h4 hp]
      obtain ⟨rest, hr⟩ := handleGitError_effects env cwd
        [SiteEffect.gitInit cwd, SiteEffect.gitPush cwd (remoteOf env) "master"] e
      rw [hr]
      exact List.take_left
        [SiteEffect.gitInit cwd, SiteEffect.gitPush cwd (remoteOf env) "master"] rest
    | none =>
      rw [localGitDeploy_eq_pushOk h1 h2 h4 hp]
      obtain ⟨rest, hr⟩ := deployCheck_effects env
        [SiteEffect.gitInit cwd, SiteEffect.gitPush cwd (remoteOf env) "master"]
      rw [hr]
      exact List.take_left
        [SiteEffect.gitInit cwd, SiteEffect.gitPush cwd (remoteOf env) "master"] rest

/-- Claim C9: on a LocalGit site with no workspace folder open,
`localGitDeploy` shows `You have not yet opened a folder to deploy.` and then
resolves with `undefined` — neither `true` nor an exception — despite its
declared `Promise<boolean>` result type. -/
theorem localGitDeploy_noFolder (env : GitEnv)
    (h1 : env.scmType = "LocalGit") (h2 : env.rootPath = none) :
    localGitDeploy env =
      (Except.ok none, [SiteEffect.showErrorMessage noFolderMsg []]) ∧
    (localGitDeploy env).1 ≠ Except.ok (some true) ∧
    ∀ msg, (localGitDeploy env).1 ≠ Except.error msg := by
  have hmain : localGitDeploy env =
      (Except.ok none, [SiteEffect.showErrorMessage noFolderMsg []]) := by
    unfold localGitDeploy
    rw [if_neg (by simp [h1]), h2]
  exact ⟨hmain, by rw [hmain]; simp, fun msg => by rw [hmain]; simp⟩

/-! Concrete environments used by witnesses and the C5 counterexample. -/

/-- A LocalGit site with an open folder, all git steps succeeding, a fresh
deployment id, and every dialog dismissed. -/
def envBase : GitEnv :=
  { scmType := "LocalGit", publishingUserName := "user"
  , publishingPassword := "pw"
  , enabledHostNames := ["site.azurewebsites.net", "site.scm.azurewebsites.net"]
  , repositorySiteName := "site", oldDeploymentId := "d0", newDeploymentId := "d1"
  , rootPath := some "/work", response := fun _ => none
  , gitInitError := none, gitPushError := none, gitForcePushError := none }

def envScmNone : GitEnv := { envBase with scmType := "None" }

def envNoFolder : GitEnv := { envBase with rootPath := none }

def envNoGit : GitEnv := { envBase with gitInitError := some "Error: spawn git ENOENT" }

def envReject : GitEnv :=
  { envBase with gitPushError := some "error: failed to push some refs" }

def envForce : GitEnv :=
  { envBase with
    response := fun _ => some "Yes",
    gitPushError := some "error: failed to push some refs" }

/-- A push error whose message contains both recognized substrings. -/
def envBothSubstr : GitEnv :=
  { envBase with
    response := fun _ => some "Yes",
    gitPushError := some "spawn git ENOENT: error: failed to push some refs" }

def envCurrent : GitEnv := { envBase with newDeploymentId := "d0" }

theorem localGitDeploy_notSetUp_witness :
    envScmNone.scmType ≠ "LocalGit" ∧
    localGitDeploy envScmNone =
      (Except.error notSetUpMsg,
        [SiteEffect.showErrorMessage notSetUpMsg ["Go to Portal"]] ++
          (if envScmNone.response notSetUpMsg = some "Go to Portal" then
            [SiteEffect.openInPortal] else [])) ∧
    (localGitDeploy envScmNone).2.all (fun eff => !isGitEffect eff) = true := by
  have h := localGitDeploy_notSetUp envScmNone (by decide)
  exact ⟨by decide, h.1, h.2⟩

theorem localGitDeploy_gitNotInstalled_witness :
    strContains "Error: spawn git ENOENT" "spawn git ENOENT" = true ∧
    envNoGit.gitInitError = some "Error: spawn git ENOENT" ∧
    localGitDeploy envNoGit = (Except.error "Error: spawn git ENOENT",
      [SiteEffect.gitInit "/work",
        SiteEffect.showErrorMessage gitInstallMsg ["Install"]] ++
          installChoice envNoGit) :=
  ⟨by decide, rfl,
    (localGitDeploy_gitNotInstalled envNoGit "/work" "Error: spawn git ENOENT"
      rfl rfl (by decide)).1 rfl⟩

theorem localGitDeploy_pushRejected_witness :
    strContains "error: failed to push some refs" "spawn git ENOENT" = false ∧
    strContains "error: failed to push some refs" "error: failed to push" = true ∧
    envReject.response forcePushMsg ≠ some "Yes" ∧
    localGitDeploy envReject = (Except.error "error: failed to push some refs",
      [SiteEffect.gitInit "/work",
        SiteEffect.gitPush "/work" (remoteOf envReject) "master",
        SiteEffect.showErrorMessage forcePushMsg ["Yes"]]) ∧
    envForce.response forcePushMsg = some "Yes" ∧
    SiteEffect.gitForcePush "/work" (remoteOf envForce) "master" ∈
      (localGitDeploy envForce).2 :=
  ⟨by decide, by decide, by decide,
    ((localGitDeploy_pushRejected envReject "/work" "error: failed to push some refs"
      (by decide) (by decide) (by decide) (by decide) (by decide)).1
        (by decide)).2 (by decide),
    by decide,
    (((localGitDeploy_pushRejected envForce "/work" "error: failed to push some refs"
      (by decide) (by decide) (by decide) (by decide) (by decide)).1
        (by decide)).1 (by decide)).2⟩

/-- Counterexample to claim C5 as stated: a push error whose message contains
`error: failed to push` but also `spawn git ENOENT` takes the earlier ENOENT
branch, so the force-push question is never asked and no force push happens,
even though the user would answer `Yes`. -/
theorem localGitDeploy_pushRejected_counterexample :
    strContains "spawn git ENOENT: error: failed to push some refs"
      "error: failed to push" = true ∧
    envBothSubstr.gitPushError =
      some "spawn git ENOENT: error: failed to push some refs" ∧
    envBothSubstr.response forcePushMsg = some "Yes" ∧
    SiteEffect.showErrorMessage forcePushMsg ["Yes"] ∉ (localGitDeploy envBothSubstr).2 ∧
    SiteEffect.gitForcePush "/work" (remoteOf envBothSubstr) "master" ∉
      (localGitDeploy envBothSubstr).2 := by
  refine ⟨by decide, by decide, by decide, by decide, by decide⟩

theorem localGitDeploy_deploymentCheck_witness :
    envCurrent.newDeploymentId = envCurrent.oldDeploymentId ∧
    localGitDeploy envCurrent = (Except.error (repoCurrentMsg (repoOf envCurrent)),
      [SiteEffect.gitInit "/work",
        SiteEffect.gitPush "/work" (remoteOf envCurrent) "master",
        SiteEffect.showWarningMessage (repoCurrentMsg (repoOf envCurrent))]) ∧
    envBase.newDeploymentId ≠ envBase.oldDeploymentId ∧
    localGitDeploy envBase = (Except.ok (some true),
      [SiteEffect.gitInit "/work",
        SiteEffect.gitPush "/work" (remoteOf envBase) "master"]) :=
  ⟨rfl,
    (localGitDeploy_deploymentCheck envCurrent "/work" rfl rfl rfl rfl).1 rfl,
    by decide,
    (localGitDeploy_deploymentCheck envBase "/work" rfl rfl rfl rfl).2.1 (by decide)⟩

theorem localGitDeploy_initThenPush_witness :
    envBase.enabledHostNames.get? 1 = some "site.scm.azurewebsites.net" ∧
    remoteOf envBase = "https://" ++ "user" ++ ":" ++ "pw" ++ "@" ++
      ("site.scm.azurewebsites.net" ++ ":443/" ++ "site" ++ ".git") ∧
    (localGitDeploy envBase).2.take 2 =
      [SiteEffect.gitInit "/work",
        SiteEffect.gitPush "/work" (remoteOf envBase) "master"] := by
  have h := localGitDeploy_initThenPush envBase "/work" "site.scm.azurewebsites.net"
    rfl rfl rfl rfl
  exact ⟨rfl, h.1, h.2⟩

theorem localGitDeploy_noFolder_witness :
    localGitDeploy envNoFolder =
      (Except.ok none, [SiteEffect.showErrorMessage noFolderMsg []]) ∧
    (localGitDeploy envNoFolder).1 ≠ Except.ok (some true) ∧
    (localGitDeploy envNoFolder).1 ≠ Except.error noFolderMsg := by
  have h := localGitDeploy_noFolder envNoFolder rfl rfl
  exact ⟨h.1, h.2.1, h.2.2 noFolderMsg⟩

/-! The deploy command's destructive-deployment confirmation condition
(`deploy.ts`):
`confirmDeployment && siteConfig.scmType !== constants.ScmType.LocalGit && siteConfig !== constants.ScmType.GitHub`.
The last strict inequality compares the whole `siteConfig` object with a
string, which is modelled by comparing tagged JavaScript values. -/

/-- The fields of `siteConfig` the deploy command reads. -/
structure SiteConfigResource where
  scmType : String
  linuxFxVersion : String
deriving DecidableEq

/-- A JavaScript value as seen by strict (in)equality: a string primitive or
the `siteConfig` object.  `===` between an object and a string is always
false, which the derived equality mirrors via distinct constructors. -/
inductive JsValue
  | str (s : String)
  | obj (c : SiteConfigResource)
deriving DecidableEq, BEq

/-- Modelled from the spec: the values of `constants.ScmType.LocalGit` and
`constants.ScmType.GitHub` live in `constants.ts`, which is not part of the
provided sources; the spec's glossary names the SCM types `Local Git`,
`GitHub` and `None`, written `'LocalGit'`/`'GitHub'` in the code. -/
def ScmTypeLocalGit : String := "LocalGit"

/-- Modelled from the spec: see `ScmTypeLocalGit`. -/
def ScmTypeGitHub : String := "GitHub"

/-- The condition guarding the confirmation dialog in the deploy command. -/
def confirmationShown (confirmDeployment : Bool) (siteConfig : SiteConfigResource) :
    Bool :=
  confirmDeployment && !(siteConfig.scmType == ScmTypeLocalGit) &&
    !(JsValue.obj siteConfig == JsValue.str ScmTypeGitHub)

/-- Claim C8: with `confirmDeployment` true, the confirmation dialog is
suppressed only when the site's `scmType` equals `LocalGit`; in particular,
because the GitHub condition compares the whole `siteConfig` object (not its
`scmType` field) to the string `GitHub`, a site configured with GitHub
deployment still triggers the confirmation dialog. -/
theorem deploy_confirmation_condition :
    (∀ cfg : SiteConfigResource,
      confirmationShown true cfg = !(cfg.scmType == ScmTypeLocalGit)) ∧
    (∀ cfg : SiteConfigResource, cfg.scmType = ScmTypeGitHub →
      confirmationShown true cfg = true) := by
  have hobj : ∀ cfg : SiteConfigResource,
      (JsValue.obj cfg == JsValue.str ScmTypeGitHub) = false := fun cfg => rfl
  constructor
  · intro cfg
    simp [confirmationShown, hobj cfg]
  · intro cfg hgh
    have h1 : (cfg.scmType == ScmTypeLocalGit) = false := by
      rw [hgh]
      decide
    simp [confirmationShown, hobj cfg, h1]

theorem deploy_confirmation_condition_witness :
    confirmationShown true { scmType := "GitHub", linuxFxVersion := "" } = true :=
  deploy_confirmation_condition.2 { scmType := "GitHub", linuxFxVersion := "" } rfl

/-! `SiteNodeBase.stopLogStream`, embedded as a state transformer over the
node's two private fields, with an effect trace. -/

/-- The node state read and written by `stopLogStream`: the `_logStream` and
`_logStreamOutputChannel` fields, each `none` when unset (handles are
identified by numbers). -/
structure LogStreamState where
  logStream : Option Nat
  logStreamOutputChannel : Option Nat
deriving DecidableEq

inductive LogEffect
  | removeAllListeners (stream : Nat)
  | destroy (stream : Nat)
  | appendLine (channel : Nat) (line : String)
deriving DecidableEq

/-- `SiteNodeBase.stopLogStream`: when a stream is set, remove its listeners,
destroy it, null the field, and append a line to the output channel if one
exists; otherwise do nothing. -/
def stopLogStream (st : LogStreamState) : LogStreamState × List LogEffect :=
  match st.logStream with
  | some h =>
    ({ st with logStream := none },
      [LogEffect.removeAllListeners h, LogEffect.destroy h] ++
        (match st.logStreamOutputChannel with
          | some ch =>
            [LogEffect.appendLine ch "Disconnected from log-streaming service."]
          | none => []))
  | none => (st, [])

/-- Claim C10: `stopLogStream` is idempotent: after any call the `_logStream`
field is `null`, so a second consecutive call performs no action (no listener
removal, no stream destruction, no output line); when no stream was ever
started, the first call is likewise a no-op. -/
theorem stopLogStream_idempotent :
    (∀ st : LogStreamState, ((stopLogStream st).1).logStream = none) ∧
    (∀ st : LogStreamState,
      stopLogStream (stopLogStream st).1 = ((stopLogStream st).1, [])) ∧
    (∀ st : LogStreamState, st.logStream = none → stopLogStream st = (st, [])) := by
  refine ⟨?_, ?_, ?_⟩
  · intro st
    rcases st with ⟨ls, ch⟩
    cases ls <;> simp [stopLogStream]
  · intro st
    rcases st with ⟨ls, ch⟩
    cases ls <;> simp [stopLogStream]
  · intro st h
    rcases st with ⟨ls, ch⟩
    simp only at h
    subst h
    simp [stopLogStream]

theorem stopLogStream_idempotent_witness :
    ((stopLogStream ⟨some 1, some 2⟩).1).logStream = none ∧
    stopLogStream (stopLogStream ⟨some 1, some 2⟩).1 =
      ((stopLogStream ⟨some 1, some 2⟩).1, []) ∧
    stopLogStream ⟨none, some 2⟩ = (⟨none, some 2⟩, []) :=
  ⟨stopLogStream_idempotent.1 ⟨some 1, some 2⟩,
    stopLogStream_idempotent.2.1 ⟨some 1, some 2⟩,
    stopLogStream_idempotent.2.2 ⟨none, some 2⟩ rfl⟩

end AppService
